import Mathlib

/-!
Shallow embedding of `src/CodeField.py` (FletCodeField): a custom Flet
control implementing manual text editing (cursor, insertion, deletion,
word navigation, key translation) and render-state synchronization.

Python strings are modelled as `List Char`; Python `str.upper()` /
`str.lower()` on the single remaining character is modelled with
`Char.toUpper` / `Char.toLower` (ASCII case mapping, which agrees with
Python on every character the control's key labels and shift map contain).
Python `-1` sentinel indices are modelled with `Int`.
-/

/-- Python `s[:k]` for an arbitrary (possibly negative) `k`. -/
def pySliceTo (s : List Char) (k : Int) : List Char :=
  if k < 0 then s.take ((s.length + k).toNat) else s.take k.toNat

/-- Index of the last occurrence of `c` in `s`, if any
(the index Python `s.rfind(c)` reports when it is not `-1`). -/
def lastIdxOf : List Char → Char → Option Nat
  | [], _ => none
  | x :: xs, c =>
    match lastIdxOf xs c with
    | some i => some (i + 1)
    | none => if x = c then some 0 else none

/-- Python `s.rfind(c)`: last index of `c`, `-1` when absent. -/
def pyRfind (s : List Char) (c : Char) : Int :=
  match lastIdxOf s c with
  | some i => (i : Int)
  | none => -1

/-- Index of the first occurrence of `c` in `s`, if any. -/
def firstIdxOf : List Char → Char → Option Nat
  | [], _ => none
  | x :: xs, c => if x = c then some 0 else (firstIdxOf xs c).map (· + 1)

/-- Python `s.find(c)`: first index of `c`, `-1` when absent. -/
def pyFind (s : List Char) (c : Char) : Int :=
  match firstIdxOf s c with
  | some i => (i : Int)
  | none => -1

/-- Python `s.split("\n")`: pieces between newlines (an empty string
splits to one empty piece). -/
def splitNl : List Char → List (List Char)
  | [] => [[]]
  | c :: rest =>
    match splitNl rest with
    | [] => [[c]]
    | p :: ps => if c = '\n' then [] :: p :: ps else (c :: p) :: ps

/-- Python `s.startswith(p)` as a decidable Bool. -/
def pyStartsWith (p s : List Char) : Bool :=
  decide (s.take p.length = p)

/-- The backtick character, `chr(96)`. -/
def backtickChar : Char := Char.ofNat 96

/-- Python `text.replace(chr(96), "\\" + chr(96))` from `_code`:
every backtick becomes backslash-backtick. -/
def escapeBackticks : List Char → List Char
  | [] => []
  | c :: rest =>
    if c = backtickChar then '\\' :: backtickChar :: escapeBackticks rest
    else c :: escapeBackticks rest

/-- Python `letter.replace("Numpad ", "")`: delete every (left-to-right,
non-overlapping) occurrence of the 7-character pattern `"Numpad "`. -/
def stripNumpadAll : List Char → List Char
  | 'N' :: 'u' :: 'm' :: 'p' :: 'a' :: 'd' :: ' ' :: rest => stripNumpadAll rest
  | c :: rest => c :: stripNumpadAll rest
  | [] => []

/-- The default UK-layout shift mapping built in `CodeField.__init__`
when `custom_shift_mapping` is omitted. -/
def defaultShiftMapping : List (List Char × List Char) :=
  [("1".toList, "!".toList),
   ("2".toList, "\"".toList),
   ("3".toList, "£".toList),
   ("4".toList, "$".toList),
   ("5".toList, "%".toList),
   ("6".toList, "^".toList),
   ("7".toList, "&".toList),
   ("8".toList, "*".toList),
   ("9".toList, "(".toList),
   ("0".toList, ")".toList),
   ("-".toList, "_".toList),
   ("=".toList, "+".toList),
   ("[".toList, "\x7b".toList),
   ("]".toList, "\x7d".toList),
   (";".toList, ":".toList),
   ("'".toList, "@".toList),
   ("#".toList, "~".toList),
   (",".toList, "<".toList),
   (".".toList, ">".toList),
   ("/".toList, "?".toList),
   ([backtickChar], "¬".toList),
   ("\\".toList, "|".toList)]

/-- The mutable state of a `CodeField` instance, restricted to the
fields the editing engine reads or writes (visual styling fields such
as colors and fonts are not part of any claim). -/
structure CodeField where
  text : List Char
  type_point : Nat
  is_caps : Bool
  focused : Bool
  allow_pasting : Bool
  tab_spacing : Nat
  language : List Char
  custom_shift_mapping : List (List Char × List Char)
deriving DecidableEq

/-- A `CodeField()` built with the constructor's default arguments. -/
def CodeField.init : CodeField :=
  { text := "print('hello world')".toList
    type_point := "print('hello world')".toList.length
    is_caps := false
    focused := false
    allow_pasting := true
    tab_spacing := 4
    language := "python".toList
    custom_shift_mapping := defaultShiftMapping }

/-- Notifications the control raises to the host (`on_change` fired by
`insert_letter` / `remove_letter`, `on_focus` fired by `set_focus`). -/
inductive FieldEvent where
  | change
  | focusChanged (f : Bool)
deriving DecidableEq

/-- `_code`: surrounds text in a fenced code block with the configured
language tag, escaping backticks. -/
def CodeField.codeFence (cf : CodeField) (text : List Char) : List Char :=
  "```".toList ++ cf.language ++ "\n".toList ++ escapeBackticks text ++ "\n```".toList

/-- The markdown value `_update_controls` assigns:
`self._code(self.text if self.text != "" else " ")`. -/
def CodeField.markdownValue (cf : CodeField) : List Char :=
  cf.codeFence (if cf.text ≠ [] then cf.text else " ".toList)

/-- The line-number labels `_update_controls` builds:
`lineCount = len(self.text.split("\n")) + 1` and one label per
`line in range(1, lineCount)`. -/
def CodeField.lineNumberLabels (cf : CodeField) : List Nat :=
  let lineCount := (splitNl cf.text).length + 1
  List.range' 1 (lineCount - 1)

/-- `_parse_letter`: translate a raw key label (plus the shift flag and
the persistent caps state) into the character to insert, or `[]`. -/
def CodeField.parse_letter (cf : CodeField) (letter : List Char) (isShift : Bool) :
    List Char :=
  let letter := if letter = "Enter".toList then "\n".toList else letter
  let letter :=
    if isShift then
      match List.lookup letter cf.custom_shift_mapping with
      | some v => v
      | none => letter
    else letter
  let letter :=
    if pyStartsWith "Numpad".toList letter then stripNumpadAll letter else letter
  if letter = "Decimal".toList then ".".toList
  else if letter = "Add".toList then "+".toList
  else if letter = "Subtract".toList then "-".toList
  else if letter = "Divide".toList then "/".toList
  else if letter = "Multiply".toList then "*".toList
  else if letter = "Num Lock".toList then []
  else if letter.length > 1 then []
  else if cf.is_caps || isShift then letter.map Char.toUpper
  else letter.map Char.toLower

/-- `set_type_point`: clamp the argument (Python name `to`) into
`[0, len(self.text)]` and store it. -/
def CodeField.set_type_point (cf : CodeField) (toPt : Int) : CodeField :=
  { cf with type_point := (max 0 (min (cf.text.length : Int) toPt)).toNat }

/-- `set_focus`: store the flag and fire `on_focus`. -/
def CodeField.set_focus (cf : CodeField) (focus : Bool) :
    CodeField × List FieldEvent :=
  ({ cf with focused := focus }, [.focusChanged focus])

/-- `insert_letter`: splice a single character in at `type_point`,
advance the cursor, fire `on_change`; no-op on empty or multi-char input. -/
def CodeField.insert_letter (cf : CodeField) (letter : List Char) :
    CodeField × List FieldEvent :=
  if letter = [] then (cf, [])
  else if letter.length > 1 then (cf, [])
  else
    let cf' := { cf with
      text := cf.text.take cf.type_point ++ letter ++ cf.text.drop cf.type_point }
    (cf'.set_type_point ((cf.type_point : Int) + 1), [.change])

/-- `insert_word`: insert each character in sequence via `insert_letter`
(`for letter in word: self.insert_letter(letter)`). -/
def CodeField.insert_word (cf : CodeField) : List Char → CodeField × List FieldEvent
  | [] => (cf, [])
  | c :: rest =>
    let r := cf.insert_letter [c]
    let r2 := r.1.insert_word rest
    (r2.1, r.2 ++ r2.2)

/-- `remove_letter`: `self.text = self.text[:self.type_point - 1] +
self.text[self.type_point:]`, then move the cursor back and fire
`on_change`.  Note `self.type_point - 1` is a Python slice index and is
`-1` when the cursor is at 0. -/
def CodeField.remove_letter (cf : CodeField) : CodeField × List FieldEvent :=
  let cf' := { cf with
    text := pySliceTo cf.text ((cf.type_point : Int) - 1) ++ cf.text.drop cf.type_point }
  (cf'.set_type_point ((cf.type_point : Int) - 1), [.change])

/-- `get_text_up_to_point`. -/
def CodeField.get_text_up_to_point (cf : CodeField) : List Char :=
  cf.text.take cf.type_point

/-- `get_text_after_point`. -/
def CodeField.get_text_after_point (cf : CodeField) : List Char :=
  cf.text.drop cf.type_point

/-- The ctrl-Backspace loop body: `remove_letter` executed `n` times
(`n` is the length of `range(self.type_point, stop, -1)`, whose bounds
Python evaluates once, before the first removal). -/
def CodeField.iterRemove (cf : CodeField) : Nat → CodeField × List FieldEvent
  | 0 => (cf, [])
  | n + 1 =>
    let r := cf.remove_letter
    let r2 := r.1.iterRemove n
    (r2.1, r.2 ++ r2.2)

/-- One keyboard event as delivered by the page: key label, ctrl, shift. -/
structure KeyboardEvent where
  key : List Char
  ctrl : Bool
  shift : Bool
deriving DecidableEq

/-- The Backspace branch of `on_keyboard_input` (source lines 375-386):
a plain Backspace calls `remove_letter` once; with ctrl held it calls
`remove_letter` once per element of `range(self.type_point,
locationOfSpace if locationOfSpace != -1 else 0, -1)` (Python evaluates
the range bounds before the first removal). -/
def CodeField.handleBackspace (cf : CodeField) (event : KeyboardEvent) :
    CodeField × List FieldEvent :=
  if !event.ctrl then cf.remove_letter
  else
    let locationOfSpace := pyRfind cf.get_text_up_to_point ' '
    let stop : Int := if locationOfSpace ≠ -1 then locationOfSpace else 0
    cf.iterRemove ((cf.type_point : Int) - stop).toNat

/-- The Arrow Left branch of `on_keyboard_input` (source lines 399-408). -/
def CodeField.handleArrowLeft (cf : CodeField) (event : KeyboardEvent) : CodeField :=
  if event.ctrl then
    let textBeforePoint := cf.get_text_up_to_point
    let spaceLocation := pyRfind textBeforePoint ' '
    cf.set_type_point (if spaceLocation ≠ -1 then spaceLocation else 0)
  else cf.set_type_point ((cf.type_point : Int) - 1)

/-- The Arrow Right branch of `on_keyboard_input` (source lines 414-424),
including the literal `self.type_point + spaceLocation` inside the
parenthesised conditional expression. -/
def CodeField.handleArrowRight (cf : CodeField) (event : KeyboardEvent) : CodeField :=
  if event.ctrl then
    let charactersBeforePoint := cf.get_text_up_to_point.length
    let textAfterPoint := cf.get_text_after_point
    let spaceLocation := pyFind textAfterPoint ' '
    cf.set_type_point ((charactersBeforePoint : Int) +
      (if spaceLocation ≠ -1 then (cf.type_point : Int) + spaceLocation
       else (textAfterPoint.length : Int)))
  else cf.set_type_point ((cf.type_point : Int) + 1)

/-- The Arrow Up branch of `on_keyboard_input` (source lines 427-431). -/
def CodeField.handleArrowUp (cf : CodeField) : CodeField :=
  let locationOfNewline := pyRfind cf.get_text_up_to_point '\n'
  cf.set_type_point
    (if locationOfNewline ≠ -1 then locationOfNewline else (cf.type_point : Int))

/-- The Arrow Down branch of `on_keyboard_input` (source lines 434-439). -/
def CodeField.handleArrowDown (cf : CodeField) : CodeField :=
  let charactersBeforePoint := cf.get_text_up_to_point.length
  let locationOfNewline := pyFind cf.get_text_after_point '\n'
  cf.set_type_point ((charactersBeforePoint : Int) +
    (if locationOfNewline ≠ -1 then (cf.type_point : Int) + locationOfNewline
     else (cf.get_text_after_point.length : Int)))

/-- The if-chain after the Tab check (source lines 413-453), acting on
the state `cf1` and the notifications `evs1` accumulated by the Tab
branch (which, faithful to the source, has no early `return`). -/
def CodeField.keyboardRestPostTab (cf1 : CodeField) (evs1 : List FieldEvent)
    (clipboard : List Char) (event : KeyboardEvent) : CodeField × List FieldEvent :=
  if event.key = "Arrow Right".toList then (cf1.handleArrowRight event, evs1)
  else if event.key = "Arrow Up".toList then (cf1.handleArrowUp, evs1)
  else if event.key = "Arrow Down".toList then (cf1.handleArrowDown, evs1)
  else if event.ctrl && event.key = "V".toList then
    let r := cf1.insert_word clipboard
    (r.1, evs1 ++ r.2)
  else
    let parsed := cf1.parse_letter event.key event.shift
    if parsed = [] then (cf1, evs1)
    else
      let r := cf1.insert_letter parsed
      (r.1, evs1 ++ r.2)

/-- The tail of `on_keyboard_input` from the Tab check onward (source
lines 410-453): the Tab insertion (no early `return`) followed by the
remaining dispatch chain. -/
def CodeField.keyboardRest (cf : CodeField) (clipboard : List Char)
    (event : KeyboardEvent) : CodeField × List FieldEvent :=
  let afterTab :=
    if event.key = "Tab".toList then
      cf.insert_word (List.replicate cf.tab_spacing ' ')
    else (cf, [])
  CodeField.keyboardRestPostTab afterTab.1 afterTab.2 clipboard event

/-- `on_keyboard_input`: the input dispatcher (source lines 366-453).
`clipboard` stands for `self.page.get_clipboard(2)`. -/
def CodeField.on_keyboard_input (cf : CodeField) (clipboard : List Char)
    (event : KeyboardEvent) : CodeField × List FieldEvent :=
  if !cf.focused then (cf, [])
  else
    let letter := event.key
    if letter = "Backspace".toList then cf.handleBackspace event
    else if letter = "Escape".toList then cf.set_focus false
    else if letter = "Caps Lock".toList then ({ cf with is_caps := !cf.is_caps }, [])
    else if letter = "Arrow Left".toList then (cf.handleArrowLeft event, [])
    else cf.keyboardRest clipboard event

/-! ### The cursor invariant, operation sequences, and concrete states -/

/-- The cursor stays inside the buffer: `0 <= cursor <= len(content)`
(the lower bound is inherent in the `Nat` representation). -/
def CodeField.Valid (cf : CodeField) : Prop :=
  cf.type_point ≤ cf.text.length

instance (cf : CodeField) : Decidable cf.Valid := by
  unfold CodeField.Valid; infer_instance

/-- One operation on the control: the buffer mutations, the cursor
setter, and a full keyboard event (which covers all navigation). -/
inductive EditOp where
  | insert (letter : List Char)
  | insertWord (word : List Char)
  | delete
  | setCursor (toPt : Int)
  | keyEvent (clipboard : List Char) (ev : KeyboardEvent)

/-- Run one operation, keeping the resulting state. -/
def applyOp (cf : CodeField) : EditOp → CodeField
  | .insert l => (cf.insert_letter l).1
  | .insertWord w => (cf.insert_word w).1
  | .delete => cf.remove_letter.1
  | .setCursor t => cf.set_type_point t
  | .keyEvent clip ev => (cf.on_keyboard_input clip ev).1

/-- Run a sequence of operations from a starting state. -/
def applyOps (cf : CodeField) (ops : List EditOp) : CodeField :=
  ops.foldl applyOp cf

/-- A focused field holding "hello world" with the cursor at the end. -/
def helloWorldField : CodeField :=
  { CodeField.init with text := "hello world".toList, type_point := 11, focused := true }

/-- A focused field holding "ab cd ef" with the cursor at offset 1. -/
def abcdefField : CodeField :=
  { CodeField.init with text := "ab cd ef".toList, type_point := 1, focused := true }

/-- A focused field holding "ab" with the cursor at offset 0. -/
def abAtZeroField : CodeField :=
  { CodeField.init with text := "ab".toList, type_point := 0, focused := true }

/-- A field holding the three-line text "a\nb\nc". -/
def threeLineField : CodeField :=
  { CodeField.init with text := "a\nb\nc".toList, type_point := 5 }

/-- A field holding the text made of a backtick, `x`, and a backtick. -/
def backtickTextField : CodeField :=
  { CodeField.init with text := [backtickChar, 'x', backtickChar], type_point := 3 }

theorem set_type_point_text (cf : CodeField) (t : Int) :
    (cf.set_type_point t).text = cf.text := rfl

theorem set_type_point_valid (cf : CodeField) (t : Int) :
    (cf.set_type_point t).Valid := by
  unfold CodeField.set_type_point CodeField.Valid
  simp only
  omega

/-- An in-range argument to `set_type_point` is stored unchanged. -/
theorem set_type_point_of_le (cf : CodeField) (t : Int) (h0 : 0 ≤ t)
    (h1 : t ≤ (cf.text.length : Int)) :
    (cf.set_type_point t).type_point = t.toNat := by
  unfold CodeField.set_type_point
  simp only
  omega

theorem insert_letter_valid (cf : CodeField) (l : List Char) (h : cf.Valid) :
    (cf.insert_letter l).1.Valid := by
  unfold CodeField.insert_letter
  split
  · exact h
  · split
    · exact h
    · exact set_type_point_valid _ _

theorem remove_letter_valid (cf : CodeField) : cf.remove_letter.1.Valid :=
  set_type_point_valid _ _

theorem insert_word_valid (word : List Char) :
    ∀ (cf : CodeField), cf.Valid → (cf.insert_word word).1.Valid := by
  induction word with
  | nil => intro cf h; exact h
  | cons c rest ih =>
    intro cf h
    exact ih _ (insert_letter_valid _ _ h)

theorem iterRemove_valid (n : Nat) :
    ∀ (cf : CodeField), cf.Valid → (cf.iterRemove n).1.Valid := by
  induction n with
  | zero => intro cf h; exact h
  | succ n ih => intro cf _; exact ih _ (remove_letter_valid cf)

theorem handleBackspace_valid (cf : CodeField) (ev : KeyboardEvent) (h : cf.Valid) :
    (cf.handleBackspace ev).1.Valid := by
  unfold CodeField.handleBackspace
  split
  · exact remove_letter_valid cf
  · exact iterRemove_valid _ _ h

theorem handleArrowLeft_valid (cf : CodeField) (ev : KeyboardEvent) :
    (cf.handleArrowLeft ev).Valid := by
  unfold CodeField.handleArrowLeft
  split
  · exact set_type_point_valid _ _
  · exact set_type_point_valid _ _

theorem handleArrowRight_valid (cf : CodeField) (ev : KeyboardEvent) :
    (cf.handleArrowRight ev).Valid := by
  unfold CodeField.handleArrowRight
  split
  · exact set_type_point_valid _ _
  · exact set_type_point_valid _ _

theorem handleArrowUp_valid (cf : CodeField) : cf.handleArrowUp.Valid :=
  set_type_point_valid _ _

theorem handleArrowDown_valid (cf : CodeField) : cf.handleArrowDown.Valid :=
  set_type_point_valid _ _

theorem keyboardRestPostTab_valid (cf1 : CodeField) (evs1 : List FieldEvent)
    (clipboard : List Char) (ev : KeyboardEvent) (h : cf1.Valid) :
    (CodeField.keyboardRestPostTab cf1 evs1 clipboard ev).1.Valid := by
  unfold CodeField.keyboardRestPostTab
  split
  · exact handleArrowRight_valid _ _
  · split
    · exact handleArrowUp_valid _
    · split
      · exact handleArrowDown_valid _
      · split
        · exact insert_word_valid _ _ h
        · dsimp only
          split
          · exact h
          · exact insert_letter_valid _ _ h

theorem keyboardRest_valid (cf : CodeField) (clipboard : List Char)
    (ev : KeyboardEvent) (h : cf.Valid) :
    (cf.keyboardRest clipboard ev).1.Valid := by
  unfold CodeField.keyboardRest
  refine keyboardRestPostTab_valid _ _ _ _ ?_
  split
  · exact insert_word_valid _ _ h
  · exact h

theorem on_keyboard_input_valid (cf : CodeField) (clipboard : List Char)
    (ev : KeyboardEvent) (h : cf.Valid) :
    (cf.on_keyboard_input clipboard ev).1.Valid := by
  unfold CodeField.on_keyboard_input
  split
  · exact h
  · dsimp only
    split
    · exact handleBackspace_valid _ _ h
    · split
      · exact h
      · split
        · exact h
        · split
          · exact handleArrowLeft_valid _ _
          · exact keyboardRest_valid _ _ _ h

/-! ### Characterizations of the search and deletion primitives -/

theorem lastIdxOf_lt_length (c : Char) :
    ∀ (s : List Char) (i : Nat), lastIdxOf s c = some i → i < s.length := by
  intro s
  induction s with
  | nil => intro i h; simp [lastIdxOf] at h
  | cons x xs ih =>
    intro i h
    rw [show lastIdxOf (x :: xs) c = (match lastIdxOf xs c with
      | some i => some (i + 1)
      | none => if x = c then some 0 else none) from rfl] at h
    cases hx : lastIdxOf xs c with
    | some j =>
      rw [hx] at h
      have hj := ih j hx
      simp only [Option.some.injEq] at h
      simp only [List.length_cons]
      omega
    | none =>
      rw [hx] at h
      by_cases hxc : x = c
      · rw [if_pos hxc] at h
        simp only [Option.some.injEq] at h
        simp only [List.length_cons]
        omega
      · rw [if_neg hxc] at h
        exact absurd h (by simp)

theorem firstIdxOf_lt_length (c : Char) :
    ∀ (s : List Char) (i : Nat), firstIdxOf s c = some i → i < s.length := by
  intro s
  induction s with
  | nil => intro i h; simp [firstIdxOf] at h
  | cons x xs ih =>
    intro i h
    rw [show firstIdxOf (x :: xs) c =
      (if x = c then some 0 else (firstIdxOf xs c).map (· + 1)) from rfl] at h
    by_cases hxc : x = c
    · rw [if_pos hxc] at h
      simp only [Option.some.injEq] at h
      simp only [List.length_cons]
      omega
    · rw [if_neg hxc] at h
      cases hx : firstIdxOf xs c with
      | some j =>
        rw [hx] at h
        have hj := ih j hx
        simp only [Option.map_some', Option.some.injEq] at h
        simp only [List.length_cons]
        omega
      | none => rw [hx] at h; exact absurd h (by simp)

/-- With the cursor in `[1, len]`, `remove_letter` removes exactly the
character at index `type_point - 1` and moves the cursor back by one. -/
theorem remove_letter_eq (cf : CodeField) (h1 : 1 ≤ cf.type_point) (hv : cf.Valid) :
    cf.remove_letter = ({ cf with
      text := cf.text.take (cf.type_point - 1) ++ cf.text.drop cf.type_point,
      type_point := cf.type_point - 1 }, [.change]) := by
  unfold CodeField.Valid at hv
  unfold CodeField.remove_letter pySliceTo CodeField.set_type_point
  dsimp only
  rw [if_neg (show ¬ ((cf.type_point : Int) - 1 < 0) by omega)]
  rw [show ((cf.type_point : Int) - 1).toNat = cf.type_point - 1 by omega]
  rw [show (max 0 (min ((cf.text.take (cf.type_point - 1) ++
      cf.text.drop cf.type_point).length : Int) ((cf.type_point : Int) - 1))).toNat
      = cf.type_point - 1 by
    simp only [List.length_append, List.length_take, List.length_drop]
    omega]

/-- Iterating `remove_letter` `n ≤ type_point` times removes exactly the
`n` characters before the cursor. -/
theorem iterRemove_eq (n : Nat) :
    ∀ (cf : CodeField), n ≤ cf.type_point → cf.Valid →
    (cf.iterRemove n).1 = { cf with
      text := cf.text.take (cf.type_point - n) ++ cf.text.drop cf.type_point,
      type_point := cf.type_point - n } := by
  induction n with
  | zero =>
    intro cf _ _
    simp only [CodeField.iterRemove, Nat.sub_zero, List.take_append_drop]
  | succ n ih =>
    intro cf hn hv
    have hv' : cf.type_point ≤ cf.text.length := hv
    have h1 : 1 ≤ cf.type_point := by omega
    have key : (cf.iterRemove (n + 1)).1 = (cf.remove_letter.1.iterRemove n).1 := rfl
    rw [key, remove_letter_eq cf h1 hv]
    have hlenA : (cf.text.take (cf.type_point - 1) ++
        cf.text.drop cf.type_point).length = cf.text.length - 1 := by
      simp only [List.length_append, List.length_take, List.length_drop]
      omega
    rw [ih ({ cf with
        text := cf.text.take (cf.type_point - 1) ++ cf.text.drop cf.type_point,
        type_point := cf.type_point - 1 })
      (by dsimp only; omega)
      (by unfold CodeField.Valid; dsimp only; rw [hlenA]; omega)]
    dsimp only
    have hlt : (cf.text.take (cf.type_point - 1)).length = cf.type_point - 1 := by
      simp only [List.length_take]; omega
    have e3 : (cf.text.take (cf.type_point - 1) ++ cf.text.drop cf.type_point).take
        (cf.type_point - 1 - n) = cf.text.take (cf.type_point - (n + 1)) := by
      rw [List.take_append_of_le_length (by omega), List.take_take]
      congr 1
      omega
    have e4 : (cf.text.take (cf.type_point - 1) ++ cf.text.drop cf.type_point).drop
        (cf.type_point - 1) = cf.text.drop cf.type_point := by
      exact List.drop_left' hlt
    rw [e3, e4]
    congr 1
    omega

/-! ### Branch evaluation of the dispatcher for concrete keys -/

theorem on_keyboard_backspace (cf : CodeField) (clipboard : List Char)
    (c s : Bool) (hf : cf.focused = true) :
    cf.on_keyboard_input clipboard ⟨"Backspace".toList, c, s⟩ =
      cf.handleBackspace ⟨"Backspace".toList, c, s⟩ := by
  simp [CodeField.on_keyboard_input, hf]

theorem on_keyboard_arrow_left (cf : CodeField) (clipboard : List Char)
    (c s : Bool) (hf : cf.focused = true) :
    cf.on_keyboard_input clipboard ⟨"Arrow Left".toList, c, s⟩ =
      (cf.handleArrowLeft ⟨"Arrow Left".toList, c, s⟩, []) := by
  simp [CodeField.on_keyboard_input, hf]

theorem on_keyboard_arrow_right (cf : CodeField) (clipboard : List Char)
    (c s : Bool) (hf : cf.focused = true) :
    cf.on_keyboard_input clipboard ⟨"Arrow Right".toList, c, s⟩ =
      (cf.handleArrowRight ⟨"Arrow Right".toList, c, s⟩, []) := by
  simp [CodeField.on_keyboard_input, CodeField.keyboardRest,
    CodeField.keyboardRestPostTab, hf]

theorem on_keyboard_paste (cf : CodeField) (clipboard : List Char)
    (s : Bool) (hf : cf.focused = true) :
    cf.on_keyboard_input clipboard ⟨"V".toList, true, s⟩ =
      cf.insert_word clipboard := by
  simp [CodeField.on_keyboard_input, CodeField.keyboardRest,
    CodeField.keyboardRestPostTab, hf]

/-! ### Claims -/

/-- C1: the claim says `remove_letter` (and a plain Backspace routed to
it) is a no-op at cursor offset 0.  The code violates it: with text "ab"
and cursor 0, the Python slice `self.text[:self.type_point - 1]` becomes
`self.text[:-1]` = "a", so the text becomes "a" + "ab" = "aab" (and the
cursor stays clamped at 0).  This theorem evaluates the code at that
failing input, for both the direct call and the dispatched event. -/
theorem C1_backspace_at_cursor_zero_mangles_text :
    abAtZeroField.remove_letter.1.text = "aab".toList ∧
    (abAtZeroField.on_keyboard_input [] ⟨"Backspace".toList, false, false⟩).1.text
      = "aab".toList ∧
    (abAtZeroField.on_keyboard_input [] ⟨"Backspace".toList, false, false⟩).1.type_point
      = 0 ∧
    "aab".toList ≠ "ab".toList := by
  decide

/-- C9: an unfocused control ignores every keyboard event: the state is
returned unchanged and no notification fires. -/
theorem C9_unfocused_ignores_keyboard (cf : CodeField) (clipboard : List Char)
    (ev : KeyboardEvent) (h : cf.focused = false) :
    cf.on_keyboard_input clipboard ev = (cf, []) := by
  simp [CodeField.on_keyboard_input, h]

/-- C9 witness: the default (unfocused) control ignores a concrete event. -/
theorem C9_witness :
    CodeField.init.on_keyboard_input [] ⟨"a".toList, false, false⟩
      = (CodeField.init, []) :=
  C9_unfocused_ignores_keyboard CodeField.init [] ⟨"a".toList, false, false⟩ rfl

/-- C10: on a focused control, Ctrl+"V" inserts the clipboard text via
`insert_word` (character by character) for every state — in particular
for both values of `allow_pasting`, which the dispatcher never reads. -/
theorem C10_paste_ignores_allow_pasting (cf : CodeField) (clipboard : List Char)
    (s : Bool) (hf : cf.focused = true) :
    cf.on_keyboard_input clipboard ⟨"V".toList, true, s⟩ =
      cf.insert_word clipboard :=
  on_keyboard_paste cf clipboard s hf

/-- C10 witness: pasting happens even with `allow_pasting = False`. -/
theorem C10_witness :
    ({ helloWorldField with allow_pasting := false } : CodeField).on_keyboard_input
        "hi".toList ⟨"V".toList, true, false⟩ =
      ({ helloWorldField with allow_pasting := false } : CodeField).insert_word
        "hi".toList :=
  C10_paste_ignores_allow_pasting _ _ _ rfl

/-- C2 counterexample: the claim predicts that Ctrl+Backspace on
"hello world" with cursor 11 stops at index 6 and leaves "hello "
(trailing space kept).  The code's loop `range(type_point,
locationOfSpace, -1)` runs 6 times and also deletes the space: the
result is "hello" with cursor 5. -/
theorem C2_counterexample :
    (helloWorldField.on_keyboard_input [] ⟨"Backspace".toList, true, false⟩).1.text
      = "hello".toList ∧
    (helloWorldField.on_keyboard_input [] ⟨"Backspace".toList, true, false⟩).1.type_point
      = 5 ∧
    "hello".toList ≠ "hello ".toList := by
  decide

/-- C2 (amended): on a focused control with a valid cursor,
Ctrl+Backspace deletes from the cursor back to and including the
previous space: if the last space of the text before the cursor is at
index `i`, the new text is `text[:i] + text[cursor:]` and the cursor
lands at `i` (the space itself is deleted); if there is no space before
the cursor, everything before the cursor is deleted and the cursor
lands at 0. -/
theorem C2_ctrl_backspace_deletes_through_space (cf : CodeField)
    (clipboard : List Char) (s : Bool) (hf : cf.focused = true) (hv : cf.Valid) :
    (∀ i, lastIdxOf (cf.text.take cf.type_point) ' ' = some i →
      (cf.on_keyboard_input clipboard ⟨"Backspace".toList, true, s⟩).1.text
        = cf.text.take i ++ cf.text.drop cf.type_point ∧
      (cf.on_keyboard_input clipboard ⟨"Backspace".toList, true, s⟩).1.type_point = i) ∧
    (lastIdxOf (cf.text.take cf.type_point) ' ' = none →
      (cf.on_keyboard_input clipboard ⟨"Backspace".toList, true, s⟩).1.text
        = cf.text.drop cf.type_point ∧
      (cf.on_keyboard_input clipboard ⟨"Backspace".toList, true, s⟩).1.type_point = 0) := by
  have hv' : cf.type_point ≤ cf.text.length := hv
  rw [on_keyboard_backspace cf clipboard true s hf]
  unfold CodeField.handleBackspace
  simp only [Bool.not_true, Bool.false_eq_true, if_false]
  constructor
  · intro i h
    have hi : i < cf.type_point := by
      have := lastIdxOf_lt_length ' ' _ i h
      rw [List.length_take] at this
      omega
    have hr : pyRfind cf.get_text_up_to_point ' ' = (i : Int) := by
      unfold pyRfind CodeField.get_text_up_to_point
      rw [h]
    rw [hr, if_pos (by omega : (i : Int) ≠ -1)]
    rw [show ((cf.type_point : Int) - (i : Int)).toNat = cf.type_point - i by omega]
    rw [iterRemove_eq (cf.type_point - i) cf (by omega) hv]
    dsimp only
    rw [show cf.type_point - (cf.type_point - i) = i by omega]
    exact ⟨rfl, rfl⟩
  · intro h
    have hr : pyRfind cf.get_text_up_to_point ' ' = -1 := by
      unfold pyRfind CodeField.get_text_up_to_point
      rw [h]
    rw [hr, if_neg (by simp)]
    rw [show ((cf.type_point : Int) - 0).toNat = cf.type_point by omega]
    rw [iterRemove_eq cf.type_point cf (by omega) hv]
    dsimp only
    rw [Nat.sub_self]
    exact ⟨by rw [List.take_zero, List.nil_append], rfl⟩

/-- C2 witness: the amended behavior at the concrete input "hello world",
cursor 11: last space at index 5, result "hello" with cursor 5. -/
theorem C2_witness :
    (helloWorldField.on_keyboard_input [] ⟨"Backspace".toList, true, false⟩).1.text
      = helloWorldField.text.take 5 ++ helloWorldField.text.drop helloWorldField.type_point ∧
    (helloWorldField.on_keyboard_input [] ⟨"Backspace".toList, true, false⟩).1.type_point
      = 5 :=
  (C2_ctrl_backspace_deletes_through_space helloWorldField [] false rfl
    (by decide)).1 5 (by decide)

/-- C3 counterexample: the claim predicts Ctrl+Left on "hello world"
with cursor 11 moves the cursor to 6 (just after the space) and a second
Ctrl+Left from 6 moves it to 0.  The code passes `rfind(" ")` itself to
`set_type_point`: the cursor goes to 5 (the space's index), and from 6
it also goes to 5, not 0. -/
theorem C3_counterexample :
    (helloWorldField.on_keyboard_input [] ⟨"Arrow Left".toList, true, false⟩).1.type_point
      = 5 ∧
    (5 : Nat) ≠ 6 ∧
    (({ helloWorldField with type_point := 6 } : CodeField).on_keyboard_input []
        ⟨"Arrow Left".toList, true, false⟩).1.type_point = 5 ∧
    (5 : Nat) ≠ 0 := by
  decide

/-- C3 (amended): on a focused control with a valid cursor, Ctrl+Left
moves the cursor to the index of the last space in the text before the
cursor (the space's own offset, not one past it), or to 0 when there is
no such space; the text is unchanged. -/
theorem C3_word_left_moves_to_space_index (cf : CodeField)
    (clipboard : List Char) (s : Bool) (hf : cf.focused = true) (hv : cf.Valid) :
    (∀ i, lastIdxOf (cf.text.take cf.type_point) ' ' = some i →
      (cf.on_keyboard_input clipboard ⟨"Arrow Left".toList, true, s⟩).1.type_point = i) ∧
    (lastIdxOf (cf.text.take cf.type_point) ' ' = none →
      (cf.on_keyboard_input clipboard ⟨"Arrow Left".toList, true, s⟩).1.type_point = 0) ∧
    (cf.on_keyboard_input clipboard ⟨"Arrow Left".toList, true, s⟩).1.text = cf.text := by
  have hv' : cf.type_point ≤ cf.text.length := hv
  rw [on_keyboard_arrow_left cf clipboard true s hf]
  refine ⟨?_, ?_, ?_⟩
  · intro i h
    have hi : i < cf.type_point := by
      have := lastIdxOf_lt_length ' ' _ i h
      rw [List.length_take] at this
      omega
    have hr : pyRfind (cf.text.take cf.type_point) ' ' = (i : Int) := by
      unfold pyRfind
      rw [h]
    unfold CodeField.handleArrowLeft CodeField.get_text_up_to_point
    dsimp only
    rw [hr, if_pos (by omega : (i : Int) ≠ -1)]
    simp only [CodeField.set_type_point, if_true]
    omega
  · intro h
    have hr : pyRfind (cf.text.take cf.type_point) ' ' = -1 := by
      unfold pyRfind
      rw [h]
    unfold CodeField.handleArrowLeft CodeField.get_text_up_to_point
    dsimp only
    rw [hr, if_neg (show ¬ ((-1 : Int) ≠ -1) by simp)]
    simp only [CodeField.set_type_point, if_true]
    omega
  · unfold CodeField.handleArrowLeft CodeField.get_text_up_to_point
    dsimp only
    exact set_type_point_text _ _

/-- C3 witness: the amended behavior at "hello world", cursor 11: the
last space is at index 5 and the cursor moves to 5. -/
theorem C3_witness :
    (helloWorldField.on_keyboard_input [] ⟨"Arrow Left".toList, true, false⟩).1.type_point
      = 5 :=
  (C3_word_left_moves_to_space_index helloWorldField [] false rfl (by decide)).1 5
    (by decide)

/-- C4 counterexample: with text "ab cd ef" and cursor 1, the first
space after the cursor is at relative offset 1, so the claim predicts
the cursor becomes 1 + 1 = 2.  The code computes `charactersBeforePoint
+ (type_point + spaceLocation)` = 1 + (1 + 1) = 3. -/
theorem C4_counterexample :
    firstIdxOf ("ab cd ef".toList.drop 1) ' ' = some 1 ∧
    (abcdefField.on_keyboard_input [] ⟨"Arrow Right".toList, true, false⟩).1.type_point
      = 3 ∧
    (3 : Nat) ≠ 1 + 1 := by
  decide

/-- C4 (amended): on a focused control with a valid cursor, Ctrl+Right
with a space at relative offset `k` after the cursor sets the cursor to
`min(len(text), 2 * cursor + k)` (the code adds `type_point` twice:
once as `charactersBeforePoint` and once inside the conditional
expression), and to the end of the buffer when there is no space after
the cursor; the text is unchanged. -/
theorem C4_word_right_adds_cursor_twice (cf : CodeField)
    (clipboard : List Char) (s : Bool) (hf : cf.focused = true) (hv : cf.Valid) :
    (∀ k, firstIdxOf (cf.text.drop cf.type_point) ' ' = some k →
      (cf.on_keyboard_input clipboard ⟨"Arrow Right".toList, true, s⟩).1.type_point
        = min cf.text.length (2 * cf.type_point + k)) ∧
    (firstIdxOf (cf.text.drop cf.type_point) ' ' = none →
      (cf.on_keyboard_input clipboard ⟨"Arrow Right".toList, true, s⟩).1.type_point
        = cf.text.length) ∧
    (cf.on_keyboard_input clipboard ⟨"Arrow Right".toList, true, s⟩).1.text = cf.text := by
  have hv' : cf.type_point ≤ cf.text.length := hv
  rw [on_keyboard_arrow_right cf clipboard true s hf]
  refine ⟨?_, ?_, ?_⟩
  · intro k h
    have hr : pyFind (cf.text.drop cf.type_point) ' ' = (k : Int) := by
      unfold pyFind
      rw [h]
    unfold CodeField.handleArrowRight CodeField.get_text_up_to_point
      CodeField.get_text_after_point
    dsimp only
    rw [hr, if_pos (by omega : (k : Int) ≠ -1)]
    simp only [CodeField.set_type_point, if_true, List.length_take]
    omega
  · intro h
    have hr : pyFind (cf.text.drop cf.type_point) ' ' = -1 := by
      unfold pyFind
      rw [h]
    unfold CodeField.handleArrowRight CodeField.get_text_up_to_point
      CodeField.get_text_after_point
    dsimp only
    rw [hr, if_neg (show ¬ ((-1 : Int) ≠ -1) by simp)]
    simp only [CodeField.set_type_point, if_true, List.length_take, List.length_drop]
    omega
  · unfold CodeField.handleArrowRight CodeField.get_text_up_to_point
      CodeField.get_text_after_point
    dsimp only
    exact set_type_point_text _ _

/-- C4 witness: the amended behavior at "ab cd ef", cursor 1: the first
space after the cursor is at offset 1 and the cursor becomes
min(8, 2 * 1 + 1) = 3. -/
theorem C4_witness :
    (abcdefField.on_keyboard_input [] ⟨"Arrow Right".toList, true, false⟩).1.type_point
      = min abcdefField.text.length (2 * abcdefField.type_point + 1) :=
  (C4_word_right_adds_cursor_twice abcdefField [] false rfl (by decide)).1 1
    (by decide)

/-- `splitNl` always produces one more piece than there are newlines. -/
theorem splitNl_length (s : List Char) :
    (splitNl s).length = s.count '\n' + 1 := by
  induction s with
  | nil => rfl
  | cons c rest ih =>
    rw [show splitNl (c :: rest) = (match splitNl rest with
      | [] => [[c]]
      | p :: ps => if c = '\n' then [] :: p :: ps else (c :: p) :: ps) from rfl]
    cases hsp : splitNl rest with
    | nil => rw [hsp] at ih; simp at ih
    | cons p ps =>
      rw [hsp] at ih
      by_cases hc : c = '\n'
      · subst hc
        dsimp only
        rw [if_pos rfl]
        simp only [List.length_cons] at ih ⊢
        rw [List.count_cons]
        simp [ih]
      · dsimp only
        rw [if_neg hc]
        simp only [List.length_cons] at ih ⊢
        rw [List.count_cons]
        simp [ih, hc]

/-- C5 counterexample: the claim predicts the labels `[1,2,3,4]` for the
three-line text "a\nb\nc" (one label beyond the last line).  The code's
`range(1, len(split) + 1)` produces exactly `[1,2,3]`: there is no
over-generation. -/
theorem C5_counterexample :
    threeLineField.lineNumberLabels = [1, 2, 3] ∧
    ([1, 2, 3] : List Nat) ≠ [1, 2, 3, 4] := by
  decide

/-- C5 (amended): the line-number sequence is exactly the labels
`1..lineCount`, one label per newline-separated line (`lineCount` =
number of newlines + 1); there is no extra label. -/
theorem C5_line_labels_exact (cf : CodeField) :
    cf.lineNumberLabels = List.range' 1 (cf.text.count '\n' + 1) ∧
    cf.lineNumberLabels.length = cf.text.count '\n' + 1 := by
  constructor
  · unfold CodeField.lineNumberLabels
    dsimp only
    rw [Nat.add_sub_cancel, splitNl_length]
  · unfold CodeField.lineNumberLabels
    dsimp only
    rw [Nat.add_sub_cancel, List.length_range', splitNl_length]

/-- `escapeBackticks` maps each character pointwise: a backtick becomes
backslash-backtick, everything else is kept. -/
theorem escapeBackticks_eq_flatMap (l : List Char) :
    escapeBackticks l = l.flatMap
      (fun c => if c = backtickChar then ['\\', backtickChar] else [c]) := by
  induction l with
  | nil => rfl
  | cons c rest ih =>
    rw [show escapeBackticks (c :: rest) =
      (if c = backtickChar then '\\' :: backtickChar :: escapeBackticks rest
       else c :: escapeBackticks rest) from rfl]
    by_cases hc : c = backtickChar
    · rw [if_pos hc, List.flatMap_cons, if_pos hc, ih]
      rfl
    · rw [if_neg hc, List.flatMap_cons, if_neg hc, ih]
      rfl

/-- C7: the fenced code string is the raw text with every backtick
escaped to backslash-backtick, wrapped as three backticks + language +
newline + text + newline + three backticks; the empty text is replaced
by a single space inside the fence; and for text backtick-x-backtick
with language "python" the output is exactly the documented string. -/
theorem C7_fenced_code_block (cf : CodeField) :
    (cf.text ≠ [] → cf.markdownValue =
      "```".toList ++ cf.language ++ "\n".toList ++
        escapeBackticks cf.text ++ "\n```".toList) ∧
    (cf.text = [] → cf.markdownValue =
      "```".toList ++ cf.language ++ "\n \n```".toList) ∧
    escapeBackticks cf.text = cf.text.flatMap
      (fun c => if c = backtickChar then ['\\', backtickChar] else [c]) ∧
    backtickTextField.markdownValue = "```python\n\\`x\\`\n```".toList := by
  refine ⟨?_, ?_, escapeBackticks_eq_flatMap cf.text, by decide⟩
  · intro h
    unfold CodeField.markdownValue CodeField.codeFence
    rw [if_pos h]
  · intro h
    unfold CodeField.markdownValue CodeField.codeFence
    rw [if_neg (not_not_intro h)]
    simp only [List.append_assoc]
    congr 2

/-- C7 witness: the empty buffer renders with a single space inside the
fence. -/
theorem C7_witness :
    ({ CodeField.init with text := [] } : CodeField).markdownValue =
      "```".toList ++ ({ CodeField.init with text := [] } : CodeField).language ++
        "\n \n```".toList :=
  (C7_fenced_code_block _).2.1 rfl

/-- C8: starting from any state satisfying the cursor invariant
`0 <= type_point <= len(text)`, every sequence of operations (character
insertion, word insertion, deletion, cursor set with an arbitrary —
possibly out-of-range — offset, and whole keyboard events covering all
navigation) preserves the invariant after each step. -/
theorem C8_cursor_invariant (ops : List EditOp) :
    ∀ (cf : CodeField), cf.Valid → (applyOps cf ops).Valid := by
  induction ops with
  | nil => intro cf h; exact h
  | cons op rest ih =>
    intro cf h
    have hstep : (applyOp cf op).Valid := by
      cases op with
      | insert l => exact insert_letter_valid _ _ h
      | insertWord w => exact insert_word_valid _ _ h
      | delete => exact remove_letter_valid _
      | setCursor t => exact set_type_point_valid _ _
      | keyEvent clip ev => exact on_keyboard_input_valid _ _ _ h
    exact ih _ hstep

/-- C8 witness: a concrete operation sequence with an out-of-range
cursor set, a delete, an insert, a negative cursor set, and a paste
event, run from the default state. -/
theorem C8_witness :
    CodeField.init.Valid ∧
    (applyOps CodeField.init [.setCursor 1000, .delete, .insert "x".toList,
      .setCursor (-5), .keyEvent "hi".toList ⟨"V".toList, true, false⟩]).Valid :=
  ⟨by decide, C8_cursor_invariant _ CodeField.init (by decide)⟩

/-- A key label of length > 1 that is not "Enter", is not substituted by
the shift map, does not start with the keypad prefix, and is none of
the special keypad labels translates to the empty string. -/
theorem parse_letter_long (cf : CodeField) (letter : List Char) (s : Bool)
    (hE : letter ≠ "Enter".toList)
    (hS : s = true → List.lookup letter cf.custom_shift_mapping = none)
    (hN : pyStartsWith "Numpad".toList letter = false)
    (hD : letter ≠ "Decimal".toList) (hA : letter ≠ "Add".toList)
    (hSu : letter ≠ "Subtract".toList) (hDi : letter ≠ "Divide".toList)
    (hM : letter ≠ "Multiply".toList) (hNL : letter ≠ "Num Lock".toList)
    (hLen : 1 < letter.length) :
    cf.parse_letter letter s = [] := by
  unfold CodeField.parse_letter
  rw [if_neg hE]
  cases s with
  | false =>
    simp only [Bool.false_eq_true, if_false]
    rw [hN]
    simp only [Bool.false_eq_true, if_false]
    rw [if_neg hD, if_neg hA, if_neg hSu, if_neg hDi, if_neg hM, if_neg hNL,
      if_pos hLen]
  | true =>
    simp only [if_true]
    rw [hS rfl]
    dsimp only
    rw [hN]
    simp only [Bool.false_eq_true, if_false]
    rw [if_neg hD, if_neg hA, if_neg hSu, if_neg hDi, if_neg hM, if_neg hNL,
      if_pos hLen]

/-- A single-character label that is not substituted by the shift map
translates to itself, upper-cased iff caps is active or shift is held. -/
theorem parse_letter_single (cf : CodeField) (ch : Char) (s : Bool)
    (hS : s = true → List.lookup [ch] cf.custom_shift_mapping = none) :
    cf.parse_letter [ch] s =
      [if cf.is_caps || s then ch.toUpper else ch.toLower] := by
  unfold CodeField.parse_letter
  rw [if_neg (show ([ch] : List Char) ≠ "Enter".toList by simp)]
  have hN : pyStartsWith "Numpad".toList [ch] = false := by
    simp [pyStartsWith]
  have hrest : (if pyStartsWith "Numpad".toList [ch] = true
        then stripNumpadAll [ch] else [ch]) = [ch] := by
    rw [hN]
    simp only [Bool.false_eq_true, if_false]
  cases s with
  | false =>
    simp only [Bool.false_eq_true, if_false]
    rw [hrest]
    rw [if_neg (show ([ch] : List Char) ≠ "Decimal".toList by simp),
      if_neg (show ([ch] : List Char) ≠ "Add".toList by simp),
      if_neg (show ([ch] : List Char) ≠ "Subtract".toList by simp),
      if_neg (show ([ch] : List Char) ≠ "Divide".toList by simp),
      if_neg (show ([ch] : List Char) ≠ "Multiply".toList by simp),
      if_neg (show ([ch] : List Char) ≠ "Num Lock".toList by simp),
      if_neg (show ¬ (1 < ([ch] : List Char).length) by simp)]
    cases hcaps : cf.is_caps <;> simp
  | true =>
    simp only [if_true]
    rw [hS rfl]
    dsimp only
    rw [hrest]
    rw [if_neg (show ([ch] : List Char) ≠ "Decimal".toList by simp),
      if_neg (show ([ch] : List Char) ≠ "Add".toList by simp),
      if_neg (show ([ch] : List Char) ≠ "Subtract".toList by simp),
      if_neg (show ([ch] : List Char) ≠ "Divide".toList by simp),
      if_neg (show ([ch] : List Char) ≠ "Multiply".toList by simp),
      if_neg (show ([ch] : List Char) ≠ "Num Lock".toList by simp),
      if_neg (show ¬ (1 < ([ch] : List Char).length) by simp)]
    cases hcaps : cf.is_caps <;> simp

/-- `_parse_letter` reads only `is_caps` and `custom_shift_mapping`. -/
theorem parse_letter_congr (cf cf' : CodeField)
    (h1 : cf.is_caps = cf'.is_caps)
    (h2 : cf.custom_shift_mapping = cf'.custom_shift_mapping) :
    ∀ (letter : List Char) (s : Bool),
      cf.parse_letter letter s = cf'.parse_letter letter s := by
  intro letter s
  unfold CodeField.parse_letter
  rw [h1, h2]

/-- C6: `_parse_letter` follows the ordered rules: "Enter" becomes a
newline; under shift a label present in the shift map is substituted by
its mapped character; the "Numpad " prefix is stripped and the special
keypad labels map to their fixed symbols (the numeric-lock label to the
empty string); any remaining label longer than one character yields the
empty string; and a single remaining character is upper-cased iff caps
is active or shift is held, else lower-cased — including the four
documented instances. -/
theorem C6_parse_letter_rules (cf : CodeField)
    (hmap : cf.custom_shift_mapping = defaultShiftMapping) :
    (∀ s : Bool, cf.parse_letter "Enter".toList s = "\n".toList) ∧
    (∀ p ∈ defaultShiftMapping, cf.parse_letter p.1 true = p.2) ∧
    (∀ s : Bool, cf.parse_letter "Numpad 7".toList s = "7".toList ∧
      cf.parse_letter "Decimal".toList s = ".".toList ∧
      cf.parse_letter "Add".toList s = "+".toList ∧
      cf.parse_letter "Subtract".toList s = "-".toList ∧
      cf.parse_letter "Divide".toList s = "/".toList ∧
      cf.parse_letter "Multiply".toList s = "*".toList ∧
      cf.parse_letter "Num Lock".toList s = []) ∧
    (∀ (letter : List Char) (s : Bool), letter ≠ "Enter".toList →
      (s = true → List.lookup letter defaultShiftMapping = none) →
      pyStartsWith "Numpad".toList letter = false →
      letter ≠ "Decimal".toList → letter ≠ "Add".toList →
      letter ≠ "Subtract".toList → letter ≠ "Divide".toList →
      letter ≠ "Multiply".toList → letter ≠ "Num Lock".toList →
      1 < letter.length → cf.parse_letter letter s = []) ∧
    (∀ (ch : Char) (s : Bool),
      (s = true → List.lookup [ch] defaultShiftMapping = none) →
      cf.parse_letter [ch] s =
        [if cf.is_caps || s then ch.toUpper else ch.toLower]) ∧
    (CodeField.init.parse_letter "Enter".toList false = "\n".toList ∧
     CodeField.init.parse_letter "1".toList true = "!".toList ∧
     CodeField.init.parse_letter "F5".toList false = [] ∧
     ({ CodeField.init with is_caps := true } : CodeField).parse_letter
       "a".toList false = "A".toList) := by
  have hrew : ∀ (letter : List Char) (s : Bool), cf.parse_letter letter s =
      ({ CodeField.init with is_caps := cf.is_caps } : CodeField).parse_letter
        letter s :=
    parse_letter_congr cf _ rfl (by rw [hmap]; rfl)
  refine ⟨?_, ?_, ?_, ?_, ?_, by decide⟩
  · intro s
    rw [hrew]
    cases hc : cf.is_caps <;> cases s <;> decide
  · intro p hp
    rw [hrew]
    revert hp
    revert p
    cases hc : cf.is_caps <;> decide
  · intro s
    refine ⟨?_, ?_, ?_, ?_, ?_, ?_, ?_⟩ <;>
      (rw [hrew]; cases hc : cf.is_caps <;> cases s <;> decide)
  · intro letter s hE hS hN hD hA hSu hDi hM hNL hLen
    refine parse_letter_long _ letter s hE ?_ hN hD hA hSu hDi hM hNL hLen
    intro h
    rw [hmap]
    exact hS h
  · intro ch s hS
    refine Eq.trans (parse_letter_single _ ch s ?_) rfl
    intro h
    rw [hmap]
    exact hS h

/-- C6 witness: keypad stripping at a concrete input, via the rules
theorem applied to the default state. -/
theorem C6_witness :
    (CodeField.init.parse_letter "Numpad 7".toList false = "7".toList) :=
  ((C6_parse_letter_rules CodeField.init rfl).2.2.1 false).1
